import Mathlib

/-!
# Verification of the spanish-flashcards TTS caching / playback / export design

Shallow embedding of the core of the `spanish-flashcards` Electron app:

* `src/main/ttsHandler.ts` — SHA-256 fingerprinting of (text, voiceId,
  languageCode), the persistent audio cache, `synthesizeSpeech`,
  `getCacheStats`, `clearCache`;
* `src/main/audioExporter.ts` — `exportAudioFile`;
* `src/renderer/src/services/PlaybackEngine.ts` — the playback state
  machine (`stop`, `setTimeWindow`, the phase loop, the delay timer);
* `src/renderer/src/services/FileParser.ts` and
  `src/renderer/src/utils/timeUtils.ts` — vocabulary parsing and the
  duration / cumulative-offset computation.

JavaScript numbers that only ever hold sizes, counts and timestamps are
modelled as `Nat`; fractional second quantities (durations, rates,
offsets) as `Rat`.  File-system state is modelled explicitly (directory
listings, blob maps, the JSON index) and passed through the functions
that the source mutates in place.
-/

namespace SpanishFlashcards

/-- Decidable equality for `Except`, so thrown-or-returned outcomes can
be evaluated on concrete inputs. -/
instance {ε α : Type} [DecidableEq ε] [DecidableEq α] :
    DecidableEq (Except ε α) := fun x y =>
  match x, y with
  | .ok a, .ok b =>
      if h : a = b then .isTrue (by rw [h]) else .isFalse (by simp [h])
  | .error a, .error b =>
      if h : a = b then .isTrue (by rw [h]) else .isFalse (by simp [h])
  | .ok _, .error _ => .isFalse (by simp)
  | .error _, .ok _ => .isFalse (by simp)

/-! ## SHA-256 (`crypto.createHash('sha256')`)

`ttsHandler.ts` and `audioExporter.ts` both derive the cache key by
hashing the `|`-joined triple with SHA-256 and hex-encoding the digest.
The hash itself is embedded as the standard FIPS 180-4 SHA-256 over a
byte list, with 32-bit words as `Nat` reduced mod `2^32`.  -/

namespace SHA256

/-- Reduce to a 32-bit word. -/
def mask32 (n : Nat) : Nat := n % 4294967296

/-- Rotate a 32-bit word right by `n` bits. -/
def rotr (n x : Nat) : Nat := mask32 ((x >>> n) ||| (x <<< (32 - n)))

/-- Big sigma 0 of the compression function. -/
def bsig0 (x : Nat) : Nat := (rotr 2 x) ^^^ (rotr 13 x) ^^^ (rotr 22 x)

/-- Big sigma 1 of the compression function. -/
def bsig1 (x : Nat) : Nat := (rotr 6 x) ^^^ (rotr 11 x) ^^^ (rotr 25 x)

/-- Small sigma 0 of the message schedule. -/
def ssig0 (x : Nat) : Nat := (rotr 7 x) ^^^ (rotr 18 x) ^^^ (x >>> 3)

/-- Small sigma 1 of the message schedule. -/
def ssig1 (x : Nat) : Nat := (rotr 17 x) ^^^ (rotr 19 x) ^^^ (x >>> 10)

/-- The 64 round constants of FIPS 180-4 (the fractional parts of the
cube roots of the first 64 primes), written in decimal. -/
def K : List Nat :=
  [1116352408, 1899447441, 3049323471, 3921009573, 961987163,
   1508970993, 2453635748, 2870763221, 3624381080, 310598401,
   607225278, 1426881987, 1925078388, 2162078206, 2614888103,
   3248222580, 3835390401, 4022224774, 264347078, 604807628,
   770255983, 1249150122, 1555081692, 1996064986, 2554220882,
   2821834349, 2952996808, 3210313671, 3336571891, 3584528711,
   113926993, 338241895, 666307205, 773529912, 1294757372,
   1396182291, 1695183700, 1986661051, 2177026350, 2456956037,
   2730485921, 2820302411, 3259730800, 3345764771, 3516065817,
   3600352804, 4094571909, 275423344, 430227734, 506948616,
   659060556, 883997877, 958139571, 1322822218, 1537002063,
   1747873779, 1955562222, 2024104815, 2227730452, 2361852424,
   2428436474, 2756734187, 3204031479, 3329325298]

/-- The initial hash value (the fractional parts of the square roots of
the first 8 primes), written in decimal. -/
def H0 : List Nat :=
  [1779033703, 3144134277, 1013904242, 2773480762,
   1359893119, 2600822924, 528734635, 1541459225]

/-- `k` bytes of `n`, big-endian. -/
def beBytes : Nat → Nat → List Nat
  | 0, _ => []
  | k + 1, n => beBytes k (n / 256) ++ [n % 256]

/-- FIPS 180-4 padding: append `0x80`, zeros to 56 mod 64 bytes, then the
bit length as 8 big-endian bytes. -/
def pad (msg : List Nat) : List Nat :=
  let padZeros := (119 - msg.length % 64) % 64
  msg ++ [0x80] ++ List.replicate padZeros 0 ++ beBytes 8 (msg.length * 8)

/-- Group bytes into big-endian 32-bit words. -/
def toWords : List Nat → List Nat
  | b0 :: b1 :: b2 :: b3 :: rest =>
      (((b0 * 256 + b1) * 256 + b2) * 256 + b3) :: toWords rest
  | _ => []

/-- Split a word list into 16-word chunks (`fuel` bounds the recursion;
callers pass the list length). -/
def chunksAux : Nat → List Nat → List (List Nat)
  | 0, _ => []
  | _ + 1, [] => []
  | fuel + 1, ws => ws.take 16 :: chunksAux fuel (ws.drop 16)

/-- Extend a 16-word chunk by `n` schedule words. -/
def extendSchedule (w : Array Nat) : Nat → Array Nat
  | 0 => w
  | n + 1 =>
      let a := extendSchedule w n
      let i := 16 + n
      a.push (mask32 (ssig1 (a.getD (i - 2) 0) + a.getD (i - 7) 0 +
                      ssig0 (a.getD (i - 15) 0) + a.getD (i - 16) 0))

/-- One compression round on the eight working variables. -/
def roundStep (st : List Nat) (kw : Nat × Nat) : List Nat :=
  match st with
  | [a, b, c, d, e, f, g, h] =>
      let ch := (e &&& f) ^^^ ((e ^^^ 4294967295) &&& g)
      let maj := (a &&& b) ^^^ (a &&& c) ^^^ (b &&& c)
      let t1 := mask32 (h + bsig1 e + ch + kw.1 + kw.2)
      let t2 := mask32 (bsig0 a + maj)
      [mask32 (t1 + t2), a, b, c, mask32 (d + t1), e, f, g]
  | other => other

/-- Compress one 16-word chunk into the running hash value. -/
def compressChunk (h : List Nat) (chunk : List Nat) : List Nat :=
  let w := (extendSchedule chunk.toArray 48).toList
  let final := (K.zip w).foldl roundStep h
  (h.zip final).map (fun p => mask32 (p.1 + p.2))

/-- SHA-256 digest (32 bytes) of a byte list. -/
def sha256 (msg : List Nat) : List Nat :=
  let ws := toWords (pad msg)
  let hh := (chunksAux ws.length ws).foldl compressChunk H0
  hh.foldr (fun w acc => beBytes 4 w ++ acc) []

/-- One lowercase hex digit. -/
def hexDigit (n : Nat) : Char := "0123456789abcdef".toList.getD n '0'

/-- Lowercase hex encoding of a digest. -/
def sha256Hex (msg : List Nat) : String :=
  String.mk ((sha256 msg).foldr
    (fun b acc => hexDigit (b / 16) :: hexDigit (b % 16) :: acc) [])

end SHA256

/-- UTF-8 bytes of a string, as `hash.update(string)` consumes them. -/
def strBytes (s : String) : List Nat := s.toUTF8.toList.map (fun b => b.toNat)

/-- `generateCacheKey` of `ttsHandler.ts` (the identical copy in
`audioExporter.ts` is this same function): the hex SHA-256 digest of
`` `${text}|${voiceId}|${languageCode}` ``. -/
def generateCacheKey (text voiceId languageCode : String) : String :=
  SHA256.sha256Hex (strBytes (text ++ "|" ++ voiceId ++ "|" ++ languageCode))

/-! ## Voice and language resolution (`ttsHandler.ts`) -/

/-- The `'en' | 'es'` language selector. -/
inductive Language
  | en
  | es
deriving DecidableEq

/-- `VOICE_IDS.spanish` — "David Martin", Peninsular Spanish. -/
def VOICE_IDS_spanish : String := "jtfxplhZxnBzQICVwoQn"

/-- `VOICE_IDS.english` — "Bella", multilingual. -/
def VOICE_IDS_english : String := "EXAVITQu4vr4xnSDxMaL"

/-- The default voice for a language. -/
def defaultVoice : Language → String
  | .es => VOICE_IDS_spanish
  | .en => VOICE_IDS_english

/-- `voiceId || (language === 'es' ? VOICE_IDS.spanish : VOICE_IDS.english)`:
an absent argument is `none`; the empty string is falsy in JavaScript, so
it also selects the default. -/
def resolveVoiceId (language : Language) (voiceId? : Option String) : String :=
  match voiceId? with
  | some v => if v = "" then defaultVoice language else v
  | none => defaultVoice language

/-- `language === 'es' ? 'es-ES' : 'en-US'`. -/
def resolveLanguageCode : Language → String
  | .es => "es-ES"
  | .en => "en-US"

/-! ## Base64 (`Buffer.toString('base64')`) -/

/-- The base64 alphabet. -/
def base64Alphabet : List Char :=
  "ABCDEFGHIJKLMNOPQRSTUVWXYZabcdefghijklmnopqrstuvwxyz0123456789+/".toList

/-- One base64 digit. -/
def b64digit (n : Nat) : Char := base64Alphabet.getD n '='

/-- Standard base64 of a byte list, with `=` padding. -/
def base64Encode : List Nat → List Char
  | [] => []
  | [a] => [b64digit (a / 4), b64digit (a % 4 * 16), '=', '=']
  | [a, b] => [b64digit (a / 4), b64digit (a % 4 * 16 + b / 16),
               b64digit (b % 16 * 4), '=']
  | a :: b :: c :: rest =>
      b64digit (a / 4) :: b64digit (a % 4 * 16 + b / 16) ::
      b64digit (b % 16 * 4 + c / 64) :: b64digit (c % 64) ::
      base64Encode rest

/-- `` `data:audio/mpeg;base64,${audioBuffer.toString('base64')}` `` -/
def toDataUrl (audio : List Nat) : String :=
  "data:audio/mpeg;base64," ++ String.mk (base64Encode audio)

/-! ## The audio cache (`ttsHandler.ts`)

The cache directory holds one `{hash}.mp3` blob per fingerprint plus the
JSON index `cacheIndex.entries`.  Both are modelled as association
lists keyed by the hex fingerprint; `saveCacheIndex` (a plain file
write) is the identity on this state and is not modelled separately. -/

/-- The `CacheEntry` metadata record of `ttsHandler.ts`. -/
structure CacheEntry where
  text : String
  voiceId : String
  languageCode : String
  timestamp : Nat
  fileSize : Nat
  lastAccessed : Nat
deriving DecidableEq

/-- The persistent cache: the `.mp3` blobs on disk and the in-memory
`cacheIndex.entries` map. -/
structure CacheState where
  blobs : List (String × List Nat)
  index : List (String × CacheEntry)
deriving DecidableEq

/-- Look up an association list by key. -/
def lookupKey {β : Type} (key : String) : List (String × β) → Option β
  | [] => none
  | p :: rest => if p.1 = key then some p.2 else lookupKey key rest

/-- Insert-or-overwrite in an association list
(`cacheIndex.entries[cacheKey] = ...`, `writeFileSync(cachePath, ...)`). -/
def setKey {β : Type} (key : String) (v : β) (l : List (String × β)) :
    List (String × β) :=
  if l.any (fun p => p.1 = key) then
    l.map (fun p => if p.1 = key then (key, v) else p)
  else l ++ [(key, v)]

/-- `cacheIndex.entries[cacheKey].lastAccessed = Date.now()` on a hit whose
index entry exists. -/
def bumpAccess (now : Nat) (key : String) (index : List (String × CacheEntry)) :
    List (String × CacheEntry) :=
  index.map (fun p => if p.1 = key then (p.1, { p.2 with lastAccessed := now }) else p)

/-! ## `synthesizeSpeech` (`ttsHandler.ts`) -/

/-- The two ways `synthesizeSpeech` throws: no API key configured, or the
ElevenLabs call failed (the thrown error is re-thrown unchanged). -/
inductive SynthError
  | notConfigured
  | gatewayError (message : String)
deriving DecidableEq

/-- Everything observable about one `synthesizeSpeech` call: the returned
data URL or thrown error, the cache state afterwards, and how many times
`client.textToSpeech.convert` was invoked. -/
structure SynthOutcome where
  result : Except SynthError String
  cache : CacheState
  gatewayCalls : Nat
deriving DecidableEq

/-- `synthesizeSpeech(text, language, voiceId?)`.

`configured` is `client !== null`; `now` is `Date.now()`;
`gatewayResponse` is what the single `client.textToSpeech.convert` call
would produce (the collected audio bytes, or the thrown error).  On a
hit (`existsSync(cachePath)`) the stored bytes are returned and the
index entry's `lastAccessed` is bumped when present; on a miss the
gateway is invoked once, and only on success are the blob and index
entry written. -/
def synthesizeSpeech (configured : Bool) (now : Nat)
    (gatewayResponse : Except String (List Nat))
    (text : String) (language : Language) (voiceId? : Option String)
    (cache : CacheState) : SynthOutcome :=
  if !configured then
    { result := .error .notConfigured, cache := cache, gatewayCalls := 0 }
  else
    let selectedVoiceId := resolveVoiceId language voiceId?
    let languageCode := resolveLanguageCode language
    let cacheKey := generateCacheKey text selectedVoiceId languageCode
    match lookupKey cacheKey cache.blobs with
    | some audio =>
        { result := .ok (toDataUrl audio),
          cache := { cache with
            index := if (lookupKey cacheKey cache.index).isSome then
                       bumpAccess now cacheKey cache.index
                     else cache.index },
          gatewayCalls := 0 }
    | none =>
        match gatewayResponse with
        | .error e =>
            { result := .error (.gatewayError e), cache := cache,
              gatewayCalls := 1 }
        | .ok audio =>
            { result := .ok (toDataUrl audio),
              cache := { blobs := setKey cacheKey audio cache.blobs,
                         index := setKey cacheKey
                           { text := text, voiceId := selectedVoiceId,
                             languageCode := languageCode, timestamp := now,
                             fileSize := audio.length, lastAccessed := now }
                           cache.index },
              gatewayCalls := 1 }

/-! ## Two concurrent `synthesizeSpeech` calls for one fingerprint

`synthesizeSpeech` runs synchronously from the `existsSync(cachePath)`
miss check up to the `await client.textToSpeech.convert(...)`, and again
synchronously from receiving the audio to `writeFileSync` + index save.
So each call is two atomic blocks around one suspension point, and two
concurrent calls for the same fingerprint interleave those blocks.
There is no in-flight request table: the only coalescing is the cache
check itself. -/

/-- Where one of the two concurrent calls stands: has not yet run its
cache check, is awaiting its own gateway call, or has returned. -/
inductive ProcState
  | start
  | inflight
  | done
deriving DecidableEq

/-- Joint state of two concurrent same-fingerprint calls: each call's
position, whether the blob for the fingerprint is on disk, and how many
gateway invocations have been issued in total. -/
structure ConcState where
  p1 : ProcState
  p2 : ProcState
  stored : Bool
  gatewayCalls : Nat
deriving DecidableEq

/-- Both calls start before the fingerprint is cached. -/
def concInit : ConcState := ⟨.start, .start, false, 0⟩

/-- Atomic steps of the two interleaved calls.  `hit`/`miss` is the
synchronous block ending at the `convert` call (a miss issues the
gateway invocation); `fin` is the synchronous block after the gateway
responds, which writes the blob and the index entry. -/
inductive ConcStep : ConcState → ConcState → Prop
  | hit1 (p : ProcState) (n : Nat) :
      ConcStep ⟨.start, p, true, n⟩ ⟨.done, p, true, n⟩
  | miss1 (p : ProcState) (n : Nat) :
      ConcStep ⟨.start, p, false, n⟩ ⟨.inflight, p, false, n + 1⟩
  | fin1 (p : ProcState) (st : Bool) (n : Nat) :
      ConcStep ⟨.inflight, p, st, n⟩ ⟨.done, p, true, n⟩
  | hit2 (p : ProcState) (n : Nat) :
      ConcStep ⟨p, .start, true, n⟩ ⟨p, .done, true, n⟩
  | miss2 (p : ProcState) (n : Nat) :
      ConcStep ⟨p, .start, false, n⟩ ⟨p, .inflight, false, n + 1⟩
  | fin2 (p : ProcState) (st : Bool) (n : Nat) :
      ConcStep ⟨p, .inflight, st, n⟩ ⟨p, .done, true, n⟩

/-- Interleaved executions of the two calls. -/
def ConcReachable : ConcState → ConcState → Prop :=
  Relation.ReflTransGen ConcStep

/-! ## Playback engine data model
(`src/renderer/src/types` and `PlaybackEngine.ts`) -/

/-- One vocabulary entry (`FlashcardEntry` of the renderer types). -/
structure FlashcardEntry where
  id : Nat
  englishWord : String
  spanishWord : String
  spanishSentence : String
  estimatedDuration : Rat
  cumulativeStartTime : Rat
deriving DecidableEq

/-- The `PlaybackPhase` union. -/
inductive PlaybackPhase
  | idle
  | english
  | pauseAfterEnglish
  | spanishWord
  | pauseAfterSpanishWord
  | spanishSentence
  | betweenEntries
deriving DecidableEq

/-- The `PlaybackState` record. -/
structure PlaybackState where
  isPlaying : Bool
  isPaused : Bool
  currentEntryIndex : Nat
  currentPhase : PlaybackPhase
  elapsedTime : Rat
  playbackRate : Rat
deriving DecidableEq

/-- `createInitialState()`. -/
def createInitialState : PlaybackState :=
  { isPlaying := false, isPaused := false, currentEntryIndex := 0,
    currentPhase := .idle, elapsedTime := 0, playbackRate := 1 }

/-- The `TimeWindow` record; the engine's initial window has
`endTime = Infinity`, modelled as `none`. -/
structure TimeWindow where
  startTime : Rat
  endTime : Option Rat
deriving DecidableEq

/-- `{ startTime: 0, endTime: Infinity }`. -/
def defaultWindow : TimeWindow := { startTime := 0, endTime := none }

/-- `t < window.endTime` (always true against `Infinity`). -/
def beforeEnd (t : Rat) (w : TimeWindow) : Bool :=
  match w.endTime with
  | none => true
  | some e => decide (t < e)

/-- Pause constants of `timeUtils.ts`, in seconds at rate 1.0:
`PAUSE_AFTER_ENGLISH = 1.5`. -/
def PAUSE_AFTER_ENGLISH : Rat := 3 / 2

/-- `PAUSE_AFTER_SPANISH_WORD = 0.8`. -/
def PAUSE_AFTER_SPANISH_WORD : Rat := 4 / 5

/-- `PAUSE_BETWEEN_ENTRIES = 1.0`. -/
def PAUSE_BETWEEN_ENTRIES : Rat := 1

/-! ## `stop()` (`PlaybackEngine.ts`, lines 122-132)

`stop` aborts the session's controller, cancels TTS playback and the
time-tracking interval (side effects outside `PlaybackState`), then
assigns `isPlaying = false`, `isPaused = false`,
`currentPhase = 'idle'` — and nothing else on the state record. -/

/-- The `PlaybackState` assignment performed by `stop()`. -/
def stop (s : PlaybackState) : PlaybackState :=
  { s with isPlaying := false, isPaused := false, currentPhase := .idle }

/-! ## `setTimeWindow(window)` (`PlaybackEngine.ts`, lines 43-54) -/

/-- `e.cumulativeStartTime >= window.startTime && e.cumulativeStartTime <
window.endTime` — the `findIndex` predicate. -/
def startsInWindow (w : TimeWindow) (e : FlashcardEntry) : Bool :=
  decide (w.startTime ≤ e.cumulativeStartTime) &&
    beforeEnd e.cumulativeStartTime w

/-- The `PlaybackState` effect of `setTimeWindow`: when `findIndex`
succeeds (`startIndex >= 0`) and `!this.state.isPlaying`, the index is
set to the first entry starting inside the window; otherwise the state
is untouched.  (The updated `timeWindow` field itself lives outside
`PlaybackState` and is threaded separately by the callers below.) -/
def setTimeWindow (entries : List FlashcardEntry) (w : TimeWindow)
    (s : PlaybackState) : PlaybackState :=
  match entries.findIdx? (startsInWindow w) with
  | some i => if !s.isPlaying then { s with currentEntryIndex := i } else s
  | none => s

/-! ## The phase loop (`playFromCurrent` / `playEntry`)

A completed, un-aborted play session is modelled as the trace of
observable actions the loop performs: `setPhase` notifications,
`tts.speak` calls, `delayWithAbort` timers, and the final `onComplete`
callback. -/

/-- One observable playback action. -/
inductive PlayEvent
  | phase (p : PlaybackPhase)
  | speak (text : String) (lang : Language)
  | delay (ms : Rat)
  | complete
deriving DecidableEq

/-- The six phases of `playEntry(entry)`, in program order: each speak
phase sets the phase then speaks; each pause phase sets the phase then
waits `PAUSE_* * 1000 / rate` milliseconds. -/
def entryEvents (rate : Rat) (e : FlashcardEntry) : List PlayEvent :=
  [.phase .english, .speak e.englishWord .en,
   .phase .pauseAfterEnglish, .delay (PAUSE_AFTER_ENGLISH * 1000 / rate),
   .phase .spanishWord, .speak e.spanishWord .es,
   .phase .pauseAfterSpanishWord,
   .delay (PAUSE_AFTER_SPANISH_WORD * 1000 / rate),
   .phase .spanishSentence, .speak e.spanishSentence .es,
   .phase .betweenEntries, .delay (PAUSE_BETWEEN_ENTRIES * 1000 / rate)]

/-- The `while` loop of `playFromCurrent` in an un-aborted session
(`isPlaying` stays true, the abort signal never fires): play the entry
at `idx` unless it starts at or past the window end, then advance to
`idx + 1` unless that runs off the array or past the window end.
`fuel` bounds the recursion; callers pass the entry count, which the
strictly increasing index never exhausts. -/
def playLoop (entries : List FlashcardEntry) (w : TimeWindow) (rate : Rat) :
    Nat → Nat → List PlayEvent
  | _, 0 => []
  | idx, fuel + 1 =>
      match entries[idx]? with
      | none => []
      | some entry =>
          if !beforeEnd entry.cumulativeStartTime w then []
          else
            entryEvents rate entry ++
              match entries[idx + 1]? with
              | none => []
              | some nextEntry =>
                  if !beforeEnd nextEntry.cumulativeStartTime w then []
                  else playLoop entries w rate (idx + 1) fuel

/-- `playFromCurrent()` for a session that runs to completion: the loop's
trace followed by the single `onComplete` callback (the loop exit is not
an abort, so `stop()` runs and `callbacks.onComplete?.()` fires once). -/
def playFromCurrent (entries : List FlashcardEntry) (w : TimeWindow)
    (rate : Rat) (idx : Nat) : List PlayEvent :=
  playLoop entries w rate idx entries.length ++ [.complete]

/-! ## The delay timer under pause
(`delayWithAbort` / `waitWhilePaused`, `PlaybackEngine.ts` 298-326)

`delayWithAbort(ms)` arms a `setTimeout(ms)`.  `pause()` pauses the
audio element and the elapsed-time interval but never touches this
timer, so the timeout fires `ms` after the phase started even while
paused; `waitWhilePaused` then polls `isPaused` every 100 ms.  With one
pause interval `[p0, p1)` (times relative to the phase start) the phase
therefore exits at `p1` if the engine is still paused when the timer
fires, else at `ms`.  The 100 ms poll granularity is idealised to an
exact wake-up at `p1`. -/

/-- Is the engine paused at time `t`, for a pause spanning `[p0, p1)`? -/
def isPausedAt (p0 p1 t : Rat) : Bool := decide (p0 ≤ t) && decide (t < p1)

/-- When the delay phase ends: the timer fires at `ms`; if still paused
then, `waitWhilePaused` holds the loop until `p1`. -/
def delayPhaseExit (ms p0 p1 : Rat) : Rat :=
  if isPausedAt p0 p1 ms then p1 else ms

/-- Time spent unpaused during `[0, exit)`, i.e. `exit` minus the overlap
of the pause interval `[p0, p1)` with `[0, exit)` (for `p0 ≤ p1`). -/
def unpausedElapsed (p0 p1 exit : Rat) : Rat :=
  exit - (min p1 exit - min p0 exit)

/-! ## `getCacheStats` and `clearCache` (`ttsHandler.ts` 440-481) -/

/-- The aggregate `getCacheStats` returns; `totalSizeMB` and the ISO
rendering of the timestamps are presentation-layer formatting of
`totalSize`, `oldestEntry` and `newestEntry` and are not modelled.
`none` is the `null` of the empty-cache branch. -/
structure CacheStats where
  totalFiles : Nat
  totalSize : Nat
  oldestEntry : Option Nat
  newestEntry : Option Nat
deriving DecidableEq

/-- `getCacheStats()`: length and `fileSize` sum over
`Object.values(cacheIndex.entries)`; oldest/newest by `reduce` with
seeds `Date.now()` and `0`. -/
def getCacheStats (now : Nat) (index : List (String × CacheEntry)) : CacheStats :=
  let entries := index.map (fun p => p.2)
  if entries.length = 0 then
    { totalFiles := 0, totalSize := 0, oldestEntry := none, newestEntry := none }
  else
    { totalFiles := entries.length,
      totalSize := (entries.map (fun e => e.fileSize)).sum,
      oldestEntry := some ((entries.map (fun e => e.timestamp)).foldl min now),
      newestEntry := some ((entries.map (fun e => e.timestamp)).foldl max 0) }

/-- `f.endsWith('.mp3')` — the `clearCache` filter, computed on the
character list. -/
def isMp3 (f : String) : Bool :=
  let cs := f.toList
  decide (cs.drop (cs.length - 4) = ['.', 'm', 'p', '3'])

/-- The cache directory listing (`readdirSync(CACHE_DIR)`) plus the
in-memory index. -/
structure CacheFsState where
  files : List String
  index : List (String × CacheEntry)
deriving DecidableEq

/-- `files.forEach(f => unlinkSync(join(CACHE_DIR, f)))`: delete the
listed files in order from the directory.  `unlinkFails` says which
files the OS refuses to delete; `unlinkSync` throws on those, and
`forEach` has no handler, so the first failure propagates out with the
earlier deletions already done.  Returns the failing file (if any) and
the directory contents afterwards. -/
def deleteLoop (unlinkFails : String → Bool) :
    List String → List String → Option String × List String
  | [], dir => (none, dir)
  | f :: rest, dir =>
      if unlinkFails f then (some f, dir)
      else deleteLoop unlinkFails rest (dir.erase f)

/-- Observable outcome of `clearCache()`: the returned
`{deleted: files.length}` count or the propagated exception, and the
directory and index afterwards. -/
structure ClearOutcome where
  result : Except String Nat
  files : List String
  index : List (String × CacheEntry)
deriving DecidableEq

/-- `clearCache()`: delete every `.mp3` in the directory, then reset the
index to `{version: '1.0', entries: {}}` and persist it, returning the
number of `.mp3` files that were listed.  An `unlinkSync` throw aborts
the `forEach` before the index reset. -/
def clearCache (unlinkFails : String → Bool) (st : CacheFsState) : ClearOutcome :=
  let mp3s := st.files.filter isMp3
  match deleteLoop unlinkFails mp3s st.files with
  | (some f, dir) => { result := .error f, files := dir, index := st.index }
  | (none, dir) => { result := .ok mp3s.length, files := dir, index := [] }

/-! ## `exportAudioFile` (`audioExporter.ts` 148-268)

The pipeline is modelled by its file-system footprint: which fragment
paths feed the concatenation, which temporary files and silence files
exist when the function returns, and the success/error result.  The
environment says which fragments are already cached
(`getCachedAudioPath`), which synthesis calls succeed, and whether the
ffmpeg concatenation succeeds.  Byte contents, the WAV/MP3 encoding of
silence and the progress percentages are not tracked. -/

/-- The exporter's local `FlashcardEntry` interface (three strings). -/
structure ExportEntry where
  englishWord : String
  spanishWord : String
  spanishSentence : String
deriving DecidableEq

/-- What exists at the final output path
(`OUTPUT_DIR/{base}-export-{timestamp}.mp3`) when `exportAudioFile`
returns: nothing, a truncated file left behind by a failed
concatenation, or the finished export. -/
inductive OutputFileState
  | absent
  | truncated
  | complete
deriving DecidableEq

/-- External behaviour the export run encounters.
`concatLeavesTruncated` is the external ffmpeg collaborator's behaviour
on a failed run: `concatenateAudio` saves directly to the final output
path, so whether a failing run has already created and flushed bytes to
that path before erroring is decided by ffmpeg, not by this code — and
the exporter's catch path never removes the output file either way. -/
structure ExportEnv where
  cached : String → Language → Bool
  synthOk : String → Language → Bool
  concatOk : Bool
  concatLeavesTruncated : Bool

/-- The three silence files written to `TEMP_DIR` (named here by slot;
the source names them by formatted duration). -/
def silencePaths : List String :=
  ["silence-1.mp3", "silence-2.mp3", "silence-3.mp3"]

/-- The cache blob path a cached fragment contributes. -/
def cachedPath (text : String) (lang : Language) : String :=
  generateCacheKey text (defaultVoice lang) (resolveLanguageCode lang) ++ ".mp3"

/-- Resolve one fragment: reuse the cache blob, or synthesize into a
fresh temp file, or fail.  Returns the path used and the temp files
created (the temp path on a fresh synthesis). -/
def resolveFragment (env : ExportEnv) (text : String) (lang : Language)
    (tempName : String) : Except String (String × List String) :=
  if env.cached text lang then .ok (cachedPath text lang, [])
  else if env.synthOk text lang then .ok (tempName, [tempName])
  else .error ("synthesis failed: " ++ text)

/-- The per-entry loop: for entry `i` resolve the English word, Spanish
word and Spanish sentence, interleaving each fragment with its silence
file, accumulating the concat input list and the temp files created.
On the first failed fragment the loop is abandoned with the temp files
created so far. -/
def exportEntriesLoop (env : ExportEnv) :
    List ExportEntry → Nat → List String → List String →
    Except (String × List String) (List String × List String)
  | [], _, paths, temps => .ok (paths, temps)
  | e :: rest, i, paths, temps =>
      match resolveFragment env e.englishWord .en
          ("temp-en-" ++ toString i ++ ".mp3") with
      | .error msg => .error (msg, temps)
      | .ok (enPath, t1) =>
          match resolveFragment env e.spanishWord .es
              ("temp-es-word-" ++ toString i ++ ".mp3") with
          | .error msg => .error (msg, temps ++ t1)
          | .ok (swPath, t2) =>
              match resolveFragment env e.spanishSentence .es
                  ("temp-es-sentence-" ++ toString i ++ ".mp3") with
              | .error msg => .error (msg, temps ++ t1 ++ t2)
              | .ok (ssPath, t3) =>
                  exportEntriesLoop env rest (i + 1)
                    (paths ++ [enPath, "silence-1.mp3", swPath, "silence-2.mp3",
                               ssPath, "silence-3.mp3"])
                    (temps ++ t1 ++ t2 ++ t3)

/-- Observable outcome of `exportAudioFile`: the result record
(`{success, error?}`), the concat input order, which temporary fragment
and silence files still exist in `TEMP_DIR` when it returns, and what
is at the final output path. -/
structure ExportOutcome where
  success : Bool
  errorMessage : Option String
  audioPaths : List String
  tempFilesLeft : List String
  silenceFilesLeft : List String
  outputFile : OutputFileState
deriving DecidableEq

/-- `exportAudioFile(entries, filename, speed, onProgress)`.

The three silence files are generated first; then every entry's three
fragments are resolved cache-first; then ffmpeg concatenates; then —
only on this success path — the temp fragments and silence files are
unlinked inside per-file `try/catch` (modelled as succeeding).  Any
throw lands in the single `catch`, which returns
`{success: false, error}` without running any cleanup.  The
concatenation writes straight to the final output path: before it
starts, nothing exists there; if it fails, the catch path does not
delete the path, so whatever the failed ffmpeg run left there
(`env.concatLeavesTruncated`) remains. -/
def exportAudioFile (env : ExportEnv) (entries : List ExportEntry) :
    ExportOutcome :=
  match exportEntriesLoop env entries 0 [] [] with
  | .error (msg, temps) =>
      { success := false, errorMessage := some msg, audioPaths := [],
        tempFilesLeft := temps, silenceFilesLeft := silencePaths,
        outputFile := .absent }
  | .ok (paths, temps) =>
      if env.concatOk then
        { success := true, errorMessage := none, audioPaths := paths,
          tempFilesLeft := [], silenceFilesLeft := [],
          outputFile := .complete }
      else
        { success := false, errorMessage := some "ffmpeg concat error",
          audioPaths := paths, tempFilesLeft := temps,
          silenceFilesLeft := silencePaths,
          outputFile := if env.concatLeavesTruncated then .truncated
                        else .absent }

/-! ## Duration estimation (`timeUtils.ts`) -/

/-- `ENGLISH_WPM = 150`. -/
def ENGLISH_WPM : Rat := 150

/-- `SPANISH_WPM = 180`. -/
def SPANISH_WPM : Rat := 180

/-- Counts maximal nonwhitespace runs; `inWord` says whether the scan is
inside such a run. -/
def countWordsAux : List Char → Bool → Nat
  | [], _ => 0
  | c :: rest, inWord =>
      if c.isWhitespace then countWordsAux rest false
      else (if inWord then 0 else 1) + countWordsAux rest true

/-- `text.split(/\s+/).filter(w => w.length > 0).length` — the number of
whitespace-separated words. -/
def countWords (s : String) : Nat := countWordsAux s.toList false

/-- `estimateTextDuration`: `max(0.5, words / wpm * 60) / rate`. -/
def estimateTextDuration (text : String) (lang : Language) (rate : Rat) : Rat :=
  let words : Rat := countWords text
  let wpm := match lang with | .es => SPANISH_WPM | .en => ENGLISH_WPM
  let baseSeconds := max (1 / 2 : Rat) (words / wpm * 60)
  baseSeconds / rate

/-- `estimateEntryDuration`: spoken durations of the three fragments plus
the three rate-scaled pauses. -/
def estimateEntryDuration (e : FlashcardEntry) (rate : Rat) : Rat :=
  estimateTextDuration e.englishWord .en rate +
    PAUSE_AFTER_ENGLISH / rate +
    estimateTextDuration e.spanishWord .es rate +
    PAUSE_AFTER_SPANISH_WORD / rate +
    estimateTextDuration e.spanishSentence .es rate +
    PAUSE_BETWEEN_ENTRIES / rate

/-! ## Vocabulary parsing (`FileParser.ts`)

`ENTRY_REGEX = /^(.+?)\s*\|\s*(.+?)\s*-\s*(.+)$/`.  The lazy groups make
the match split at the first `|` of the line (needing at least one
character before it), and then at the first `-` of the remainder that
has at least one character on each side; the `\s*` runs only strip
whitespace that `.trim()` removes from the captures anyway. -/

/-- `s.trim()` on the character list: strip leading and trailing
whitespace. -/
def trimChars (cs : List Char) : List Char :=
  (((cs.dropWhile Char.isWhitespace).reverse).dropWhile Char.isWhitespace).reverse

/-- `s.trim()`. -/
def trimString (s : String) : String := String.mk (trimChars s.toList)

/-- `s.split('\n')` on the character list: split at every separator,
keeping empty pieces, as the JavaScript method does. -/
def splitChar (sep : Char) : List Char → List (List Char)
  | [] => [[]]
  | a :: rest =>
      let r := splitChar sep rest
      if a = sep then [] :: r
      else
        match r with
        | h :: t => (a :: h) :: t
        | [] => [[a]]

/-- Split at the first occurrence of `c`; `none` when `c` is absent. -/
def splitAtFirst (c : Char) : List Char → Option (List Char × List Char)
  | [] => none
  | a :: rest =>
      if a = c then some ([], rest)
      else (splitAtFirst c rest).map (fun p => (a :: p.1, p.2))

/-- Split at the first `-` that has a nonempty prefix (accumulated in
`acc`, reversed) and a nonempty suffix; a `-` failing that test is
consumed into the prefix, as regex backtracking does. -/
def dashSplitAux (acc : List Char) : List Char → Option (List Char × List Char)
  | [] => none
  | c :: rest =>
      if c = '-' && !acc.isEmpty && !rest.isEmpty then some (acc.reverse, rest)
      else dashSplitAux (c :: acc) rest

/-- `line.match(ENTRY_REGEX)`: the three captures, un-trimmed. -/
def matchEntryLine (line : String) : Option (String × String × String) :=
  match splitAtFirst '|' line.toList with
  | none => none
  | some (before, after) =>
      if before.isEmpty then none
      else
        match dashSplitAux [] after with
        | none => none
        | some (mid, rest) =>
            some (String.mk before, String.mk mid, String.mk rest)

/-- The `for` loop of `parseVocabularyFile`: `i` is the 0-based line
number, `cum` the running `cumulativeTime`.  Blank and non-matching
lines are skipped; a matching line becomes an entry whose
`estimatedDuration` is computed from its own trimmed fields and added
to the running total. -/
def parseLines (rate : Rat) : List String → Nat → Rat → List FlashcardEntry
  | [], _, _ => []
  | l :: rest, i, cum =>
      let line := trimString l
      if line = "" then parseLines rate rest (i + 1) cum
      else
        match matchEntryLine line with
        | some (en, sw, ss) =>
            let e0 : FlashcardEntry :=
              { id := i + 1, englishWord := trimString en,
                spanishWord := trimString sw,
                spanishSentence := trimString ss, estimatedDuration := 0,
                cumulativeStartTime := cum }
            let d := estimateEntryDuration e0 rate
            { e0 with estimatedDuration := d } ::
              parseLines rate rest (i + 1) (cum + d)
        | none => parseLines rate rest (i + 1) cum

/-- `parseVocabularyFile(content, playbackRate)`:
`content.trim().split('\n')`, then the line loop. -/
def parseVocabularyFile (content : String) (playbackRate : Rat) :
    List FlashcardEntry :=
  parseLines playbackRate
    ((splitChar '\n' (trimString content).toList).map String.mk) 0 0

/-- The `map` of `recalculateDurations`, threading `cumulativeTime`. -/
def recalcLoop (rate : Rat) : List FlashcardEntry → Rat → List FlashcardEntry
  | [], _ => []
  | e :: rest, cum =>
      let d := estimateEntryDuration e rate
      { e with estimatedDuration := d, cumulativeStartTime := cum } ::
        recalcLoop rate rest (cum + d)

/-- `recalculateDurations(entries, playbackRate)`. -/
def recalculateDurations (entries : List FlashcardEntry) (rate : Rat) :
    List FlashcardEntry :=
  recalcLoop rate entries 0

/-- Offsets chain from `t`: the head starts at `t` and each entry's
successor starts at its start plus its duration. -/
def chainedFrom : List FlashcardEntry → Rat → Prop
  | [], _ => True
  | e :: rest, t =>
      e.cumulativeStartTime = t ∧ chainedFrom rest (t + e.estimatedDuration)

/-- The cumulative-offset invariant as the claim states it: the first
entry starts at 0, and each later entry starts where its predecessor's
estimated duration ends. -/
def chainInvariant (l : List FlashcardEntry) : Prop :=
  (∀ h0 : 0 < l.length, (l.get ⟨0, h0⟩).cumulativeStartTime = 0) ∧
    ∀ i, (h : i + 1 < l.length) →
      (l.get ⟨i + 1, h⟩).cumulativeStartTime =
        (l.get ⟨i, by omega⟩).cumulativeStartTime +
          (l.get ⟨i, by omega⟩).estimatedDuration

/-! ## Concrete sample data used to exercise the definitions -/

/-- A mid-playback state with a nonzero elapsed-time counter. -/
def stopSample : PlaybackState :=
  { isPlaying := true, isPaused := false, currentEntryIndex := 2,
    currentPhase := .spanishWord, elapsedTime := 5, playbackRate := 1 }

/-- Five entries whose cumulative offsets are `[0, 5, 12, 18, 25]` — the
spec's time-window example. -/
def windowEntries : List FlashcardEntry :=
  [⟨1, "one", "uno", "s1", 5, 0⟩,
   ⟨2, "two", "dos", "s2", 7, 5⟩,
   ⟨3, "three", "tres", "s3", 6, 12⟩,
   ⟨4, "four", "cuatro", "s4", 7, 18⟩,
   ⟨5, "five", "cinco", "s5", 5, 25⟩]

/-- The `[10, 20)` window of the spec's example. -/
def window1020 : TimeWindow := { startTime := 10, endTime := some 20 }

/-- A non-playing state already positioned at the offset-18 entry, which
lies inside `[10, 20)`. -/
def insideWindowState : PlaybackState :=
  { createInitialState with currentEntryIndex := 3 }

/-- Two entries for exercising the playback phase loop. -/
def twoEntries : List FlashcardEntry :=
  [⟨1, "cat", "gato", "El gato duerme.", 53 / 10, 0⟩,
   ⟨2, "run", "correr", "Me gusta correr.", 53 / 10, 53 / 10⟩]

/-- A cache directory with two blobs and their index entries. -/
def twoBlobCache : CacheFsState :=
  { files := ["a.mp3", "b.mp3", "cache-index.json"],
    index := [("a", ⟨"t1", "v", "es-ES", 1, 10, 1⟩),
              ("b", ⟨"t2", "v", "es-ES", 2, 20, 2⟩)] }

/-- An export environment with an empty cache whose synthesis succeeds
only for the English word `"cat"`. -/
def exportFailEnv : ExportEnv :=
  { cached := fun _ _ => false, synthOk := fun t _ => t = "cat",
    concatOk := true, concatLeavesTruncated := false }

/-- An export environment where every fragment is already cached. -/
def exportOkEnv : ExportEnv :=
  { cached := fun _ _ => true, synthOk := fun _ _ => true, concatOk := true,
    concatLeavesTruncated := false }

/-- An export environment whose fragments all resolve but whose ffmpeg
concatenation fails after having flushed bytes to the output path. -/
def concatFailEnv : ExportEnv :=
  { cached := fun _ _ => true, synthOk := fun _ _ => true, concatOk := false,
    concatLeavesTruncated := true }

/-- A one-entry export job. -/
def exportOneEntry : List ExportEntry := [⟨"cat", "gato", "El gato duerme."⟩]

/-- A two-line vocabulary file in the `english | spanish - sentence`
format. -/
def sampleVocab : String :=
  "cat | gato - El gato duerme.\nrun | correr - Me gusta correr."

/-! # Theorems -/

/-- C1, counterexample.  The claim asserts distinct digests for any two
triples differing in at least one field, naming the boundary case
(text="a|b", voice="c") versus (text="a", voice="b|c").  Precisely
there the `|`-joined pre-hash strings coincide, so `generateCacheKey`
returns the *same* digest for the two distinct triples. -/
theorem c1_field_boundary_collision :
    generateCacheKey "a|b" "c" "es-ES" = generateCacheKey "a" "b|c" "es-ES" ∧
      ("a|b", "c") ≠ ("a", "b|c") := by
  refine ⟨?_, by decide⟩
  exact congrArg (fun s => SHA256.sha256Hex (strBytes s)) (by decide)

/-- C1, amended.  The fingerprint is stable across repeated calls, and it
is a function of the `|`-joined encoding alone — so triples whose joined
encodings coincide (the field-boundary collisions) receive identical
digests; distinctness for triples with distinct encodings rests on
SHA-256 collision resistance and is not an unconditional fact. -/
theorem c1_fingerprint_stable_and_keyed_by_encoding :
    (∀ t v l, generateCacheKey t v l = generateCacheKey t v l) ∧
      ∀ t₁ v₁ l₁ t₂ v₂ l₂,
        t₁ ++ "|" ++ v₁ ++ "|" ++ l₁ = t₂ ++ "|" ++ v₂ ++ "|" ++ l₂ →
          generateCacheKey t₁ v₁ l₁ = generateCacheKey t₂ v₂ l₂ := by
  refine ⟨fun _ _ _ => rfl, fun t₁ v₁ l₁ t₂ v₂ l₂ h => ?_⟩
  exact congrArg (fun s => SHA256.sha256Hex (strBytes s)) h

/-- Witness for the amended C1 at a concrete boundary pair. -/
theorem c1_fingerprint_witness :
    ("x|y" ++ "|" ++ "z" ++ "|" ++ "en-US" =
        "x" ++ "|" ++ "y|z" ++ "|" ++ "en-US") ∧
      generateCacheKey "x|y" "z" "en-US" = generateCacheKey "x" "y|z" "en-US" :=
  ⟨by decide,
   c1_fingerprint_stable_and_keyed_by_encoding.2 "x|y" "z" "en-US"
     "x" "y|z" "en-US" (by decide)⟩

/-- C3.  When the cache misses and the single gateway call fails, the
error is re-thrown to the caller, the blob store and the index are both
exactly as before, and exactly one gateway invocation happened (no
retry). -/
theorem c3_gateway_failure_propagates_cache_unchanged
    (now : Nat) (e : String) (text : String) (language : Language)
    (voiceId? : Option String) (cache : CacheState)
    (hmiss : lookupKey (generateCacheKey text (resolveVoiceId language voiceId?)
        (resolveLanguageCode language)) cache.blobs = none) :
    synthesizeSpeech true now (.error e) text language voiceId? cache =
      { result := .error (.gatewayError e), cache := cache,
        gatewayCalls := 1 } := by
  simp [synthesizeSpeech, hmiss]

/-- Witness for C3: a failing gateway call against the empty cache. -/
theorem c3_gateway_failure_witness :
    lookupKey (generateCacheKey "hola" (resolveVoiceId .es none)
        (resolveLanguageCode .es)) (CacheState.mk [] []).blobs = none ∧
      synthesizeSpeech true 0 (.error "network error") "hola" .es none ⟨[], []⟩ =
        { result := .error (.gatewayError "network error"), cache := ⟨[], []⟩,
          gatewayCalls := 1 } :=
  ⟨rfl, c3_gateway_failure_propagates_cache_unchanged 0 "network error"
    "hola" .es none ⟨[], []⟩ rfl⟩

/-- C5, counterexample.  `stop()` is claimed to reset the elapsed-time
counter; on a state whose `elapsedTime` is 5 it leaves it at 5. -/
theorem c5_stop_preserves_elapsedTime :
    (stop stopSample).elapsedTime = 5 ∧ (stop stopSample).elapsedTime ≠ 0 := by
  decide

/-- C5, amended.  `stop()` clears the playing/paused flags and resets the
active phase to idle, and leaves every other `PlaybackState` field —
`currentEntryIndex`, but also `elapsedTime` (not reset) and
`playbackRate` — unchanged. -/
theorem c5_stop_characterization (s : PlaybackState) :
    stop s = { isPlaying := false, isPaused := false,
               currentEntryIndex := s.currentEntryIndex,
               currentPhase := .idle, elapsedTime := s.elapsedTime,
               playbackRate := s.playbackRate } := rfl

/-- 1 when a call has passed its cache check, else 0: each call issues at
most one gateway invocation, at that check. -/
def pastCheck : ProcState → Nat
  | .start => 0
  | .inflight => 1
  | .done => 1

/-- Inductive invariant of the two-call interleaving: the invocation
count is bounded by the checks performed, a stored blob or an in-flight
call testifies to at least one invocation, and a completed call implies
the blob is stored. -/
def concInv (s : ConcState) : Prop :=
  s.gatewayCalls ≤ pastCheck s.p1 + pastCheck s.p2 ∧
    (s.stored = true → 1 ≤ s.gatewayCalls) ∧
    (s.p1 = .done → s.stored = true) ∧
    (s.p2 = .done → s.stored = true) ∧
    (s.p1 = .inflight → 1 ≤ s.gatewayCalls) ∧
    (s.p2 = .inflight → 1 ≤ s.gatewayCalls)

theorem concInv_of_reachable (s : ConcState)
    (h : ConcReachable concInit s) : concInv s := by
  induction h with
  | refl => simp [concInv, concInit, pastCheck]
  | tail _ step ih =>
      cases step <;>
        simp_all [concInv, pastCheck] <;>
        omega

theorem pastCheck_le_one (p : ProcState) : pastCheck p ≤ 1 := by
  cases p <;> simp [pastCheck]

/-- C2, counterexample.  It is *not* the case that every interleaving of
two concurrent same-fingerprint `synthesizeSpeech` calls that completes
both calls performs exactly one gateway invocation: when both miss
checks run before either write-back, each call invokes the gateway. -/
theorem c2_concurrent_miss_double_invocation :
    ¬ ∀ s, ConcReachable concInit s → s.p1 = .done → s.p2 = .done →
        s.gatewayCalls = 1 := by
  intro h
  have chain : ConcReachable concInit ⟨.done, .done, true, 2⟩ :=
    Relation.ReflTransGen.head (ConcStep.miss1 .start 0)
      (Relation.ReflTransGen.head (ConcStep.miss2 .inflight 1)
        (Relation.ReflTransGen.head (ConcStep.fin1 .inflight false 2)
          (Relation.ReflTransGen.head (ConcStep.fin2 .done true 2)
            Relation.ReflTransGen.refl)))
  have := h ⟨.done, .done, true, 2⟩ chain rfl rfl
  simp at this

/-- C2, amended.  Each concurrent call invokes the gateway at most once
(so two concurrent calls give at most two invocations, and at least one
once both complete); but, as the counterexample shows, two invocations
are reachable — deduplication happens only through the persisted cache
entry, not through an in-flight request table. -/
theorem c2_gateway_calls_bounded (s : ConcState)
    (h : ConcReachable concInit s) :
    s.gatewayCalls ≤ 2 ∧
      (s.p1 = .done → s.p2 = .done → 1 ≤ s.gatewayCalls) := by
  obtain ⟨hle, hst, hd1, _, _, _⟩ := concInv_of_reachable s h
  refine ⟨?_, fun hp1 _ => hst (hd1 hp1)⟩
  have b1 := pastCheck_le_one s.p1
  have b2 := pastCheck_le_one s.p2
  omega

/-- Witness for the amended C2: the state after the first call's miss
check, reached by one step. -/
theorem c2_gateway_calls_witness :
    (ConcState.mk .inflight .start false 1).gatewayCalls ≤ 2 ∧
      ((ConcState.mk .inflight .start false 1).p1 = .done →
        (ConcState.mk .inflight .start false 1).p2 = .done →
          1 ≤ (ConcState.mk .inflight .start false 1).gatewayCalls) :=
  c2_gateway_calls_bounded ⟨.inflight, .start, false, 1⟩
    (Relation.ReflTransGen.single (ConcStep.miss1 .start 0))

/-- With the engine's initial window (`endTime = Infinity`) the loop
walks the whole suffix from `idx`, emitting each entry's six phases. -/
theorem playLoop_defaultWindow (entries : List FlashcardEntry) (rate : Rat) :
    ∀ fuel idx, entries.length ≤ idx + fuel →
      playLoop entries defaultWindow rate idx fuel =
        ((entries.drop idx).map (entryEvents rate)).flatten := by
  intro fuel
  induction fuel with
  | zero =>
      intro idx h
      rw [List.drop_eq_nil_of_le (by omega)]
      simp [playLoop]
  | succ fuel ih =>
      intro idx h
      have hbe : ∀ t, beforeEnd t defaultWindow = true := fun _ => rfl
      rw [playLoop]
      cases hidx : entries[idx]? with
      | none =>
          rw [List.drop_eq_nil_of_le (List.getElem?_eq_none_iff.mp hidx)]
          simp
      | some entry =>
          have hlt : idx < entries.length := by
            by_contra hge
            rw [List.getElem?_eq_none_iff.mpr (by omega)] at hidx
            cases hidx
          have hdrop : entries.drop idx = entry :: entries.drop (idx + 1) := by
            rw [List.drop_eq_getElem_cons hlt]
            have := List.getElem?_eq_getElem hlt
            rw [hidx] at this
            injection this with heq
            rw [heq]
          cases hnext : entries[idx + 1]? with
          | none =>
              have h1 : entries.length ≤ idx + 1 :=
                List.getElem?_eq_none_iff.mp hnext
              rw [hdrop, List.drop_eq_nil_of_le h1]
              simp only [hbe, Bool.not_true, Bool.false_eq_true, if_false]
              simp
          | some nextEntry =>
              rw [hdrop]
              simp only [hbe, Bool.not_true, Bool.false_eq_true, if_false]
              rw [ih (idx + 1) (by omega)]
              simp

theorem count_complete_entryEvents (rate : Rat) (e : FlashcardEntry) :
    (entryEvents rate e).count .complete = 0 := rfl

theorem count_complete_flatten (rate : Rat) (l : List FlashcardEntry) :
    ((l.map (entryEvents rate)).flatten).count PlayEvent.complete = 0 := by
  induction l with
  | nil => rfl
  | cons e rest ih =>
      simp only [List.map_cons, List.flatten_cons, List.count_append, ih,
        count_complete_entryEvents]

/-- C4.  An un-aborted play session over a non-empty entry list emits,
for each entry in array order, exactly the six phases
english / pause-after-english / spanish-word / pause-after-spanish-word /
spanish-sentence / between-entries (with their speaks and delays), and
after the final entry's between-entries pause fires `onComplete`
exactly once. -/
theorem c4_playback_trace (entries : List FlashcardEntry) (rate : Rat)
    (hne : entries ≠ []) :
    playFromCurrent entries defaultWindow rate 0 =
        (entries.map (entryEvents rate)).flatten ++ [.complete] ∧
      (playFromCurrent entries defaultWindow rate 0).count .complete = 1 := by
  have htrace : playFromCurrent entries defaultWindow rate 0 =
      (entries.map (entryEvents rate)).flatten ++ [.complete] := by
    rw [playFromCurrent,
      playLoop_defaultWindow entries rate entries.length 0 (by omega)]
    simp
  refine ⟨htrace, ?_⟩
  rw [htrace, List.count_append, count_complete_flatten]
  rfl

/-- Witness for C4 on a concrete two-entry list. -/
theorem c4_playback_witness :
    twoEntries ≠ [] ∧
      (playFromCurrent twoEntries defaultWindow 1 0 =
          (twoEntries.map (entryEvents 1)).flatten ++ [.complete] ∧
        (playFromCurrent twoEntries defaultWindow 1 0).count .complete = 1) :=
  ⟨by decide, c4_playback_trace twoEntries 1 (by decide)⟩

/-- C6, counterexample.  A 1500 ms pause-1 timer with the engine paused
from 1000 ms to 2000 ms: the phase exits at 2000 ms (extended past the
schedule, though suspension semantics would give 2500 ms) after only
1000 ms of unpaused time — neither quantity equals the originally
scheduled 1500 ms, because `pause()` never suspends the timer. -/
theorem c6_paused_delay_counterexample :
    delayPhaseExit 1500 1000 2000 = 2000 ∧
      unpausedElapsed 1000 2000 (delayPhaseExit 1500 1000 2000) = 1000 ∧
      (2000 : Rat) ≠ 1500 ∧ (1000 : Rat) ≠ 1500 := by
  have hexit : delayPhaseExit 1500 1000 2000 = 2000 := by decide
  refine ⟨hexit, ?_, by norm_num, by norm_num⟩
  rw [hexit]
  norm_num [unpausedElapsed, min_def]

/-- C6, amended.  For a pause that begins during the delay
(`0 ≤ p0 ≤ p1`, `p0 < ms`): the `setTimeout` keeps running while
paused, so the phase ends at `max ms p1` — exactly the scheduled `ms`
(neither restarted nor extended) whenever the resume happens by the
scheduled end, and at the resume time `p1` otherwise; the unpaused
elapsed time is `max ms p1 - (p1 - p0)` and never exceeds the scheduled
duration. -/
theorem c6_delay_timer_not_suspended (ms p0 p1 : Rat)
    (h0 : 0 ≤ p0) (h01 : p0 ≤ p1) (hp : p0 < ms) :
    delayPhaseExit ms p0 p1 = max ms p1 ∧
      (p1 ≤ ms → delayPhaseExit ms p0 p1 = ms) ∧
      unpausedElapsed p0 p1 (delayPhaseExit ms p0 p1) =
        max ms p1 - (p1 - p0) ∧
      unpausedElapsed p0 p1 (delayPhaseExit ms p0 p1) ≤ ms := by
  rcases le_or_lt p1 ms with hle | hlt
  · have hpause : isPausedAt p0 p1 ms = false := by
      simp [isPausedAt]
      intro
      linarith
    have hexit : delayPhaseExit ms p0 p1 = ms := by
      simp [delayPhaseExit, hpause]
    have hmax : max ms p1 = ms := max_eq_left hle
    refine ⟨by rw [hexit, hmax], fun _ => hexit, ?_, ?_⟩
    · rw [hexit, hmax]
      simp [unpausedElapsed, min_eq_left hle, min_eq_left (le_of_lt hp)]
    · rw [hexit]
      simp [unpausedElapsed, min_eq_left hle, min_eq_left (le_of_lt hp)]
      linarith
  · have hpause : isPausedAt p0 p1 ms = true := by
      simp [isPausedAt]
      exact ⟨le_of_lt hp, hlt⟩
    have hexit : delayPhaseExit ms p0 p1 = p1 := by
      simp [delayPhaseExit, hpause]
    have hmax : max ms p1 = p1 := max_eq_right (le_of_lt hlt)
    refine ⟨by rw [hexit, hmax], fun hc => absurd hc (not_le.mpr hlt), ?_, ?_⟩
    · rw [hexit, hmax]
      simp [unpausedElapsed, min_eq_left (le_refl p1), min_eq_left h01]
    · rw [hexit]
      simp [unpausedElapsed, min_eq_left (le_refl p1), min_eq_left h01]
      linarith

/-- Witness for the amended C6 at the concrete pause of the
counterexample scenario. -/
theorem c6_delay_witness :
    (0 : Rat) ≤ 1000 ∧ (1000 : Rat) ≤ 2000 ∧ (1000 : Rat) < 1500 ∧
      (delayPhaseExit 1500 1000 2000 = max 1500 2000 ∧
        ((2000 : Rat) ≤ 1500 → delayPhaseExit 1500 1000 2000 = 1500) ∧
        unpausedElapsed 1000 2000 (delayPhaseExit 1500 1000 2000) =
          max 1500 2000 - (2000 - 1000) ∧
        unpausedElapsed 1000 2000 (delayPhaseExit 1500 1000 2000) ≤ 1500) :=
  ⟨by decide, by decide, by decide,
   c6_delay_timer_not_suspended 1500 1000 2000 (by decide) (by decide)
     (by decide)⟩

/-- C7, counterexample.  With offsets `[0, 5, 12, 18, 25]` and window
`[10, 20)`, a non-playing state already at index 3 — the offset-18
entry, which is *inside* the window — is still snapped to index 2: the
code never checks whether the current index lies in the window, so the
claimed "only when the current index falls outside" is false. -/
theorem c7_snaps_inside_window_counterexample :
    startsInWindow window1020 (windowEntries.get ⟨3, by decide⟩) = true ∧
      insideWindowState.isPlaying = false ∧
      insideWindowState.currentEntryIndex = 3 ∧
      (setTimeWindow windowEntries window1020
          insideWindowState).currentEntryIndex = 2 := by
  decide

/-- C7, amended.  `setTimeWindow` snaps `currentEntryIndex` to the first
entry whose cumulative start offset lies in `[startTime, endTime)`
whenever such an entry exists and nothing is playing — regardless of
whether the current index is already inside the window; while playing,
or when no entry starts inside the window, the state is unchanged. -/
theorem c7_setTimeWindow_characterization
    (entries : List FlashcardEntry) (w : TimeWindow) (s : PlaybackState) :
    (∀ i, entries.findIdx? (startsInWindow w) = some i → s.isPlaying = false →
        setTimeWindow entries w s = { s with currentEntryIndex := i }) ∧
      (s.isPlaying = true → setTimeWindow entries w s = s) ∧
      (entries.findIdx? (startsInWindow w) = none →
        setTimeWindow entries w s = s) := by
  refine ⟨fun i hi hp => ?_, fun hp => ?_, fun hn => ?_⟩
  · simp [setTimeWindow, hi, hp]
  · cases h : entries.findIdx? (startsInWindow w) <;>
      simp [setTimeWindow, h, hp]
  · simp [setTimeWindow, hn]

/-- Witness for the amended C7: the spec's own example ends at the
offset-12 entry (index 2). -/
theorem c7_setTimeWindow_witness :
    windowEntries.findIdx? (startsInWindow window1020) = some 2 ∧
      createInitialState.isPlaying = false ∧
      setTimeWindow windowEntries window1020 createInitialState =
        { createInitialState with currentEntryIndex := 2 } :=
  ⟨by decide, rfl,
   (c7_setTimeWindow_characterization windowEntries window1020
      createInitialState).1 2 (by decide) rfl⟩

theorem deleteLoop_noFail (fs : List String) :
    ∀ dir, deleteLoop (fun _ => false) fs dir = (none, dir.diff fs) := by
  induction fs with
  | nil => intro dir; simp [deleteLoop]
  | cons f rest ih => intro dir; simp [deleteLoop, ih, List.diff_cons]

theorem diff_cons_of_forall_ne (a : String) (fs : List String)
    (h : ∀ f ∈ fs, f ≠ a) :
    ∀ l, (a :: l).diff fs = a :: l.diff fs := by
  induction fs with
  | nil => intro l; simp
  | cons f rest ih =>
      intro l
      rw [List.diff_cons, List.erase_cons_tail, List.diff_cons,
        ih (fun g hg => h g (List.mem_cons_of_mem f hg))]
      exact fun hh => h f (List.mem_cons_self f rest) (eq_of_beq hh).symm

theorem diff_filter_not (p : String → Bool) (l : List String) :
    l.diff (l.filter p) = l.filter (fun a => !p a) := by
  induction l with
  | nil => simp
  | cons a l ih =>
      by_cases h : p a
      · simp [List.filter_cons, h, List.diff_cons, List.erase_cons_head, ih]
      · have hne : ∀ f ∈ l.filter p, f ≠ a := by
          intro f hf
          have hpf := (List.mem_filter.mp hf).2
          intro heq
          rw [heq] at hpf
          simp [h] at hpf
        have hstep : (a :: l).diff ((a :: l).filter p) =
            (a :: l).diff (l.filter p) := by
          simp [List.filter_cons, h]
        rw [hstep, diff_cons_of_forall_ne a (l.filter p) hne l, ih]
        simp [List.filter_cons, h]

/-- C8, counterexample.  `clearCache` is claimed to tolerate individual
file-delete failures, never aborting partway.  With two cached blobs
and `unlinkSync` failing on the second, `clearCache` throws: `a.mp3` is
already deleted, `b.mp3` remains, the index still holds both entries,
and `stats` still reports 2 files. -/
theorem c8_unlink_failure_aborts_clear :
    (clearCache (fun f => f = "b.mp3") twoBlobCache).result = .error "b.mp3" ∧
      (clearCache (fun f => f = "b.mp3") twoBlobCache).files =
        ["b.mp3", "cache-index.json"] ∧
      (clearCache (fun f => f = "b.mp3") twoBlobCache).index =
        twoBlobCache.index ∧
      (getCacheStats 0 (clearCache (fun f => f = "b.mp3")
          twoBlobCache).index).totalFiles = 2 := by
  decide

/-- C8, amended.  When no individual delete fails, `clearCache` deletes
every `.mp3` in the cache directory (whether or not the index references
it), resets and persists an empty index, reports the number of `.mp3`
files listed, and afterwards `stats` is zeroed with no blob file
remaining.  But a single `unlinkSync` failure propagates out of
`clearCache` partway: the remaining blobs and the whole old index are
left in place. -/
theorem c8_clear_characterization :
    (∀ st : CacheFsState,
        clearCache (fun _ => false) st =
          { result := .ok (st.files.filter isMp3).length,
            files := st.files.filter (fun f => !isMp3 f), index := [] } ∧
          (clearCache (fun _ => false) st).files.filter isMp3 = [] ∧
          getCacheStats 0 (clearCache (fun _ => false) st).index =
            { totalFiles := 0, totalSize := 0, oldestEntry := none,
              newestEntry := none }) ∧
      ∀ fail st f, (clearCache fail st).result = .error f →
        (clearCache fail st).index = st.index := by
  constructor
  · intro st
    have hmain : clearCache (fun _ => false) st =
        { result := .ok (st.files.filter isMp3).length,
          files := st.files.filter (fun f => !isMp3 f), index := [] } := by
      simp only [clearCache]
      rw [deleteLoop_noFail]
      simp [diff_filter_not]
    refine ⟨hmain, ?_, by rw [hmain]; rfl⟩
    rw [hmain]
    simp [List.filter_filter]
  · intro fail st f h
    unfold clearCache at h ⊢
    cases hd : deleteLoop fail (st.files.filter isMp3) st.files with
    | mk o dir =>
        cases o <;> simp [hd] at h ⊢

/-- Witness for the amended C8: a delete failure on `a.mp3` leaves the
index untouched. -/
theorem c8_clear_witness :
    ((clearCache (fun f => f = "a.mp3") twoBlobCache).result =
        .error "a.mp3") ∧
      (clearCache (fun f => f = "a.mp3") twoBlobCache).index =
        twoBlobCache.index :=
  ⟨by decide,
   c8_clear_characterization.2 (fun f => f = "a.mp3") twoBlobCache "a.mp3"
     (by decide)⟩

/-- C9, counterexample.  Two failing runs refute the claim.  One entry
whose English word synthesizes but whose Spanish word fails: the export
returns a failure with a cause, but the already-created English temp
fragment and all three silence files are still on disk when the call
returns — the `catch` path performs no cleanup.  And a run whose
fragments all resolve but whose concatenation fails after ffmpeg — which
saves straight to the final output path — has flushed bytes there: the
catch path does not delete the output path, so a truncated file is left
in the final output location. -/
theorem c9_failure_skips_cleanup :
    ((exportAudioFile exportFailEnv exportOneEntry).success = false ∧
      (exportAudioFile exportFailEnv exportOneEntry).errorMessage =
        some "synthesis failed: gato" ∧
      (exportAudioFile exportFailEnv exportOneEntry).tempFilesLeft =
        ["temp-en-0.mp3"] ∧
      (exportAudioFile exportFailEnv exportOneEntry).silenceFilesLeft =
        silencePaths ∧
      (exportAudioFile exportFailEnv exportOneEntry).silenceFilesLeft ≠ []) ∧
    ((exportAudioFile concatFailEnv exportOneEntry).success = false ∧
      (exportAudioFile concatFailEnv exportOneEntry).outputFile =
        .truncated ∧
      (exportAudioFile concatFailEnv exportOneEntry).outputFile ≠
        .absent) := by
  decide

/-- C9, amended.  On a successful export every temporary fragment and
silence file is deleted before the call returns and the finished file is
at the final output path.  On any stage failure the export aborts with a
failure result carrying a cause description, but performs no cleanup —
the silence files (and any temp fragments already created) remain in
temporary storage; a failure before concatenation leaves nothing at the
final output path, but the concatenation writes directly to that path
and the catch path never removes it, so on a concatenation failure
whatever the failed ffmpeg run left there — a truncated file, when it
had flushed bytes — remains in the final output location. -/
theorem c9_cleanup_characterization (env : ExportEnv)
    (entries : List ExportEntry) :
    ((exportAudioFile env entries).success = true →
        (exportAudioFile env entries).tempFilesLeft = [] ∧
          (exportAudioFile env entries).silenceFilesLeft = [] ∧
          (exportAudioFile env entries).outputFile = .complete) ∧
      ((exportAudioFile env entries).success = false →
        (exportAudioFile env entries).errorMessage ≠ none ∧
          (exportAudioFile env entries).silenceFilesLeft = silencePaths ∧
          (exportAudioFile env entries).outputFile ≠ .complete) ∧
      (∀ msg temps, exportEntriesLoop env entries 0 [] [] =
            .error (msg, temps) →
          (exportAudioFile env entries).outputFile = .absent) ∧
      (∀ paths temps, exportEntriesLoop env entries 0 [] [] =
            .ok (paths, temps) →
          env.concatOk = false →
          (exportAudioFile env entries).outputFile =
            (if env.concatLeavesTruncated then .truncated else .absent)) := by
  unfold exportAudioFile
  cases h : exportEntriesLoop env entries 0 [] [] with
  | error p =>
      obtain ⟨msg, temps⟩ := p
      simp
  | ok p =>
      obtain ⟨paths, temps⟩ := p
      by_cases hc : env.concatOk <;>
        by_cases ht : env.concatLeavesTruncated <;>
          simp [hc, ht]

/-- Witness for the amended C9: a fully cached export cleans up and
completes its output file, and a concrete concat failure that flushed
bytes leaves a truncated output. -/
theorem c9_cleanup_witness :
    ((exportAudioFile exportOkEnv exportOneEntry).success = true ∧
      ((exportAudioFile exportOkEnv exportOneEntry).tempFilesLeft = [] ∧
        (exportAudioFile exportOkEnv exportOneEntry).silenceFilesLeft = [] ∧
        (exportAudioFile exportOkEnv exportOneEntry).outputFile =
          .complete)) ∧
    (exportEntriesLoop concatFailEnv exportOneEntry 0 [] [] =
        .ok ((exportAudioFile concatFailEnv exportOneEntry).audioPaths, []) ∧
      concatFailEnv.concatOk = false ∧
      (exportAudioFile concatFailEnv exportOneEntry).outputFile =
        (if concatFailEnv.concatLeavesTruncated then .truncated
         else .absent)) :=
  ⟨⟨by decide,
    (c9_cleanup_characterization exportOkEnv exportOneEntry).1 (by decide)⟩,
   rfl, by decide,
   (c9_cleanup_characterization concatFailEnv exportOneEntry).2.2.2
     (exportAudioFile concatFailEnv exportOneEntry).audioPaths []
     rfl (by decide)⟩

theorem recalcLoop_chained (rate : Rat) (entries : List FlashcardEntry) :
    ∀ cum, chainedFrom (recalcLoop rate entries cum) cum := by
  induction entries with
  | nil => intro cum; trivial
  | cons e rest ih => intro cum; exact ⟨rfl, ih _⟩

theorem parseLines_chained (rate : Rat) (ls : List String) :
    ∀ i cum, chainedFrom (parseLines rate ls i cum) cum := by
  induction ls with
  | nil => intro i cum; trivial
  | cons l rest ih =>
      intro i cum
      simp only [parseLines]
      by_cases hb : trimString l = ""
      · simp [hb, ih]
      · cases hm : matchEntryLine (trimString l) with
        | none => simp [hb, hm, ih]
        | some t =>
            obtain ⟨en, sw, ss⟩ := t
            simp only [hb, hm, if_false]
            exact ⟨rfl, ih _ _⟩

theorem chainedFrom_head (l : List FlashcardEntry) (t : Rat)
    (h : chainedFrom l t) :
    ∀ h0 : 0 < l.length, (l.get ⟨0, h0⟩).cumulativeStartTime = t := by
  cases l with
  | nil => intro h0; simp at h0
  | cons e rest => intro h0; exact h.1

theorem chainedFrom_succ (l : List FlashcardEntry) :
    ∀ t, chainedFrom l t →
      ∀ i, (hi : i + 1 < l.length) →
        (l.get ⟨i + 1, hi⟩).cumulativeStartTime =
          (l.get ⟨i, by omega⟩).cumulativeStartTime +
            (l.get ⟨i, by omega⟩).estimatedDuration := by
  induction l with
  | nil => intro t _ i hi; simp at hi
  | cons e rest ih =>
      intro t h i hi
      cases i with
      | zero =>
          cases rest with
          | nil => simp at hi
          | cons e2 rest2 =>
              have h1 := h.1
              have h2 := h.2.1
              simp only [List.get]
              rw [h2, h1]
      | succ j =>
          have hj : j + 1 < rest.length := by
            simp only [List.length_cons] at hi
            omega
          exact ih (t + e.estimatedDuration) h.2 j hj

theorem chainInvariant_of_chainedFrom (l : List FlashcardEntry)
    (h : chainedFrom l 0) : chainInvariant l :=
  ⟨chainedFrom_head l 0 h, chainedFrom_succ l 0 h⟩

/-- C10.  For every vocabulary text and rate, the entry list produced by
`parseVocabularyFile` — and likewise `recalculateDurations` at any
rate — has its first entry starting at cumulative offset 0 and every
subsequent entry starting at its predecessor's offset plus the
predecessor's estimated duration. -/
theorem c10_cumulative_offset_invariant (content : String)
    (entries : List FlashcardEntry) (rate rate2 : Rat) :
    chainInvariant (parseVocabularyFile content rate) ∧
      chainInvariant (recalculateDurations entries rate2) :=
  ⟨chainInvariant_of_chainedFrom _ (parseLines_chained rate _ 0 0),
   chainInvariant_of_chainedFrom _ (recalcLoop_chained rate2 entries 0)⟩

/-- Witness for C10 on a parsed two-line file and a recalculated list. -/
theorem c10_offset_witness :
    (0 + 1 < (parseVocabularyFile sampleVocab 1).length) ∧
      ((parseVocabularyFile sampleVocab 1).get
          ⟨0 + 1, by decide⟩).cumulativeStartTime =
        ((parseVocabularyFile sampleVocab 1).get
            ⟨0, by decide⟩).cumulativeStartTime +
          ((parseVocabularyFile sampleVocab 1).get
              ⟨0, by decide⟩).estimatedDuration ∧
      (0 < (recalculateDurations twoEntries 2).length) ∧
      ((recalculateDurations twoEntries 2).get
          ⟨0, by decide⟩).cumulativeStartTime = 0 :=
  ⟨by decide,
   (c10_cumulative_offset_invariant sampleVocab [] 1 1).1.2 0 (by decide),
   by decide,
   (c10_cumulative_offset_invariant sampleVocab twoEntries 1 2).2.1 (by decide)⟩

end SpanishFlashcards
